import Mathlib

/-!
Verification of the resilient request layer and the real-time connection
subsystem of the messenger client library.

The embedding follows the JavaScript source:

* `NetworkManager` (HTTP request executor with rate limiting, retries and
  error classification) from `src/client/AuthManager.js` (second file part);
* `WebSocketManager` (connection state machine, delivery tracker, heartbeat
  cycle and event dispatch) from `src/client/WebSocketManager.js`;
* the error classes from `src/utils/errors.js`.

Machine integers are modelled as `Nat` (JavaScript timestamps and status
codes are small non-negative integers in all reachable states), promises as
explicit outcome values, and the timer machinery of the Node event loop as
explicit timer records.
-/

namespace MessengerSpec

/-! ## Request executor: `NetworkManager` -/

/-- Transport-level error codes distinguished by `NetworkManager._shouldRetry`.
`otherCode` stands for any code outside the four retried ones
(for example `ECONNABORTED`). -/
inductive TransportCode
  | econnreset
  | econnrefused
  | enotfound
  | etimedout
  | otherCode
deriving DecidableEq, Repr

/-- The JavaScript error values that can reach the `catch` block of
`NetworkManager._makeRequest`:

* `axiosNet code` — an axios rejection with an `error.code` and no
  `error.response` (the request never produced an HTTP response);
* `axiosHttp status` — an axios rejection carrying `error.response`
  (`validateStatus` is `status < 500`, so axios itself rejects exactly the
  5xx responses);
* `networkError statusCode` — a thrown `NetworkError` instance
  (from `_createHttpError` in `_handleResponse`); a `NetworkError` stores its
  data in `this.details` and has neither an `error.code` nor an
  `error.response` property. -/
inductive JsError
  | axiosNet (code : TransportCode)
  | axiosHttp (status : Nat)
  | networkError (statusCode : Option Nat)
deriving DecidableEq, Repr

/-- The codes retried by `_shouldRetry`:
`ECONNRESET`, `ECONNREFUSED`, `ENOTFOUND`, `ETIMEDOUT`. -/
def retryableCode : TransportCode → Bool
  | .econnreset => true
  | .econnrefused => true
  | .enotfound => true
  | .etimedout => true
  | .otherCode => false

/-- `NetworkManager._shouldRetry(error, attempt)`.  The guards follow the
source order: last-attempt check, transport codes, `response.status >= 500`,
`response.status === 429`, other 4xx, final `return false`.  A
`networkError` value has no `code` and no `response` property, so every
guard falls through to the final `return false`. -/
def shouldRetry (maxRetries : Nat) (e : JsError) (attempt : Nat) : Bool :=
  if maxRetries ≤ attempt then false
  else
    match e with
    | .axiosNet c => retryableCode c
    | .axiosHttp s =>
        if 500 ≤ s then true
        else if s = 429 then true
        else if 400 ≤ s ∧ s < 500 then false
        else false
    | .networkError _ => false

/-- `NetworkManager._handleResponse(response, options)` for a response that
axios resolved (status < 500): a 3xx response is returned unchanged when
`options.followRedirect === false`; a status ≥ 400 is rethrown via
`_createHttpError` as a `NetworkError`; anything else is returned. -/
def handleResponse (followRedirect : Option Bool) (status : Nat) :
    Except JsError Nat :=
  if followRedirect = some false ∧ 300 ≤ status ∧ status < 400 then .ok status
  else if 400 ≤ status then .error (.networkError (some status))
  else .ok status

/-- The classified `NetworkError` finally surfaced by `_makeRequest` via
`_createNetworkError(lastError, url, method)`: `statusCode` is filled only
when the last error carried an `error.response`. -/
structure ClassifiedError where
  statusCode : Option Nat
  url : Nat
  method : Nat
deriving DecidableEq, Repr

/-- `NetworkManager._createNetworkError`. -/
def createNetworkError (e : Option JsError) (url method : Nat) :
    ClassifiedError :=
  match e with
  | some (.axiosHttp s) => ⟨some s, url, method⟩
  | _ => ⟨none, url, method⟩

/-- What the wire does on one dispatched attempt: fail at transport level
with a code, or deliver an HTTP response with a status, after `dur`
milliseconds. -/
inductive AttemptOutcome
  | netFail (code : TransportCode) (dur : Nat)
  | httpResponse (status : Nat) (dur : Nat)
deriving DecidableEq, Repr

/-- Duration of the attempt. -/
def AttemptOutcome.dur : AttemptOutcome → Nat
  | .netFail _ d => d
  | .httpResponse _ d => d

/-- Whether axios resolves for this outcome (`validateStatus` accepts every
status < 500); only then does `_makeRequest` reach
`_updateRequestTracking()`. -/
def AttemptOutcome.resolves : AttemptOutcome → Bool
  | .netFail _ _ => false
  | .httpResponse st _ => st < 500

/-- The mutable fields of a `NetworkManager` instance touched by
`_makeRequest` (request tracking plus the configuration fields). -/
structure NetState where
  requestCount : Nat
  lastRequestTime : Nat
  rateLimitDelay : Nat
  maxRetries : Nat
  retryDelay : Nat
deriving DecidableEq, Repr

/-- `NetworkManager._applyRateLimit()` at wall-clock time `now`: the time at
which the first attempt is dispatched after the suspension (if any). -/
def applyRateLimit (now : Nat) (s : NetState) : Nat :=
  if now - s.lastRequestTime < s.rateLimitDelay then
    now + (s.rateLimitDelay - (now - s.lastRequestTime))
  else now

/-- One try of the loop body of `_makeRequest` up to and including
`_handleResponse`: either the attempt succeeds with a response value, or it
throws a `JsError` into the `catch` block.  `endT` is the wall-clock time at
which the attempt completed and `last1` the value of `lastRequestTime`
afterwards (`_updateRequestTracking` runs exactly when axios resolved). -/
inductive StepOutcome
  | success (v : Nat) (endT : Nat) (last1 : Nat)
  | failure (e : JsError) (endT : Nat) (last1 : Nat)
deriving DecidableEq, Repr

/-- End time of the step. -/
def StepOutcome.endTime : StepOutcome → Nat
  | .success _ e _ => e
  | .failure _ e _ => e

/-- New `lastRequestTime` after the step. -/
def StepOutcome.lastAfter : StepOutcome → Nat
  | .success _ _ l => l
  | .failure _ _ l => l

/-- The body of one loop iteration of `_makeRequest`: dispatch the attempt
at time `t`, observe the transport outcome `env attempt`, run
`_updateRequestTracking` when axios resolved, then `_handleResponse`. -/
def attemptStep (env : Nat → AttemptOutcome) (followRedirect : Option Bool)
    (attempt t last : Nat) : StepOutcome :=
  match env attempt with
  | .netFail c dur => .failure (.axiosNet c) (t + dur) last
  | .httpResponse status dur =>
      if status < 500 then
        match handleResponse followRedirect status with
        | .ok v => .success v (t + dur) (t + dur)
        | .error e => .failure e (t + dur) (t + dur)
      else .failure (.axiosHttp status) (t + dur) last

/-- Trace produced by the retry loop: start time of every dispatched
attempt, every backoff wait performed between attempts, the final result,
and the final `lastRequestTime`. -/
structure RunTrace where
  starts : List Nat
  waits : List Nat
  result : Except ClassifiedError Nat
  lastRequestTime : Nat

/-- The retry loop of `_makeRequest` (`for attempt = 1 .. maxRetries`),
with `fuel` the number of loop iterations still permitted
(`fuel = maxRetries - attempt + 1` at every reachable call).  On a caught
error, `_shouldRetry` decides between backoff-and-retry
(`_wait(retryDelay * attempt)` guarded by `attempt < maxRetries`) and
`break`; leaving the loop throws
`_createNetworkError(lastError, url, method)`. -/
def makeRequestLoop (env : Nat → AttemptOutcome) (followRedirect : Option Bool)
    (url method maxR retryD : Nat) :
    Nat → Nat → Nat → Nat → Option JsError → RunTrace
  | 0, _, _, last, lastErr =>
      ⟨[], [], .error (createNetworkError lastErr url method), last⟩
  | fuel + 1, attempt, t, last, _lastErr =>
      match attemptStep env followRedirect attempt t last with
      | .success v _ last1 => ⟨[t], [], .ok v, last1⟩
      | .failure e endT last1 =>
          if shouldRetry maxR e attempt then
            if attempt < maxR then
              let r := makeRequestLoop env followRedirect url method maxR retryD
                fuel (attempt + 1) (endT + retryD * attempt) last1 (some e)
              ⟨t :: r.starts, retryD * attempt :: r.waits, r.result,
                r.lastRequestTime⟩
            else
              let r := makeRequestLoop env followRedirect url method maxR retryD
                fuel (attempt + 1) endT last1 (some e)
              ⟨t :: r.starts, r.waits, r.result, r.lastRequestTime⟩
          else ⟨[t], [], .error (createNetworkError (some e) url method), last1⟩

/-- Result of one logical request: the attempt trace together with the
final executor state. -/
structure RequestResult where
  starts : List Nat
  waits : List Nat
  result : Except ClassifiedError Nat
  final : NetState

/-- `NetworkManager._makeRequest(method, url, data, options)` started at
wall-clock time `now` in executor state `s`: increment `requestCount`,
apply the rate limit once, then run the retry loop. -/
def makeRequest (env : Nat → AttemptOutcome) (followRedirect : Option Bool)
    (url method now : Nat) (s : NetState) : RequestResult :=
  let s1 : NetState := { s with requestCount := s.requestCount + 1 }
  let t1 := applyRateLimit now s1
  let r := makeRequestLoop env followRedirect url method s1.maxRetries
    s1.retryDelay s1.maxRetries 1 t1 s1.lastRequestTime none
  ⟨r.starts, r.waits, r.result, { s1 with lastRequestTime := r.lastRequestTime }⟩

/-! Concrete environments used to evaluate the executor. -/

/-- Every attempt receives HTTP 429, taking 5 ms. -/
def env429 : Nat → AttemptOutcome := fun _ => .httpResponse 429 5

/-- Every attempt receives HTTP 503, taking 5 ms. -/
def env503 : Nat → AttemptOutcome := fun _ => .httpResponse 503 5

/-- Every attempt receives HTTP 404, taking 5 ms. -/
def env404 : Nat → AttemptOutcome := fun _ => .httpResponse 404 5

/-- Every attempt fails with `ECONNREFUSED`, taking 5 ms. -/
def envRefused : Nat → AttemptOutcome := fun _ => .netFail .econnrefused 5

/-- Attempt 1 receives HTTP 503 (axios rejects, retried); every later
attempt receives HTTP 404 (axios resolves, terminal). -/
def envMixed : Nat → AttemptOutcome := fun k =>
  if k = 1 then .httpResponse 503 5 else .httpResponse 404 5

/-- A small executor state: no previous request, rate-limit delay 1000 ms,
3 attempts maximum, base retry delay 100 ms. -/
def s0 : NetState := ⟨0, 0, 1000, 3, 100⟩

/-- The update rule of the shared last-dispatch time over one run: scan
the dispatched attempts in order, pairing attempt numbers with their
recorded start times; an attempt on which axios resolves sets the
timestamp to that attempt's completion time (start plus duration), and
every other attempt leaves it unchanged. -/
def trackLast (env : Nat → AttemptOutcome) : Nat → List Nat → Nat → Nat
  | _, [], last => last
  | attempt, x :: rest, last =>
      trackLast env (attempt + 1) rest
        (if (env attempt).resolves = true then x + (env attempt).dur
         else last)

/-! ### Lemmas about the retry loop -/

theorem shouldRetry_lt {maxR attempt : Nat} {e : JsError}
    (h : shouldRetry maxR e attempt = true) : attempt < maxR := by
  unfold shouldRetry at h
  split at h
  · simp at h
  · omega

theorem shouldRetry_networkError (maxR attempt : Nat) (sc : Option Nat) :
    shouldRetry maxR (.networkError sc) attempt = false := by
  unfold shouldRetry
  split <;> rfl

theorem handleResponse_error (frf : Option Bool) (st : Nat) (e : JsError)
    (h : handleResponse frf st = .error e) : e = .networkError (some st) := by
  unfold handleResponse at h
  split at h
  · simp at h
  · split at h
    · injection h with h
      exact h.symm
    · simp at h

theorem attemptStep_endTime (env : Nat → AttemptOutcome) (frf : Option Bool)
    (attempt t last : Nat) :
    (attemptStep env frf attempt t last).endTime = t + (env attempt).dur := by
  cases henv : env attempt with
  | netFail c d => simp [attemptStep, henv, StepOutcome.endTime, AttemptOutcome.dur]
  | httpResponse st d =>
      by_cases h5 : st < 500
      · cases hr : handleResponse frf st <;>
          simp [attemptStep, henv, h5, hr, StepOutcome.endTime, AttemptOutcome.dur]
      · simp [attemptStep, henv, h5, StepOutcome.endTime, AttemptOutcome.dur]

/-- Invariants of the retry-loop trace: one more attempt start than backoff
waits (no wait before the first attempt, none after the final one), the
first attempt dispatched at the entry time, the `i`-th wait equal to the
linear backoff `retryDelay * attempt`, and each subsequent attempt starting
exactly at the previous attempt's end plus that backoff. -/
def TraceOK (env : Nat → AttemptOutcome) (retryD attempt t : Nat)
    (r : RunTrace) : Prop :=
  r.starts.length = r.waits.length + 1
  ∧ r.starts.get? 0 = some t
  ∧ (∀ i, i < r.waits.length →
      r.waits.get? i = some (retryD * (attempt + i)))
  ∧ ∀ k x, r.starts.get? k = some x → k + 1 < r.starts.length →
      r.starts.get? (k + 1)
        = some (x + (env (attempt + k)).dur + retryD * (attempt + k))

theorem makeRequestLoop_trace (env : Nat → AttemptOutcome) (frf : Option Bool)
    (url method maxR retryD : Nat) :
    ∀ fuel attempt t last le, attempt + fuel = maxR + 1 → 1 ≤ fuel →
      TraceOK env retryD attempt t
        (makeRequestLoop env frf url method maxR retryD fuel attempt t last le) := by
  intro fuel
  induction fuel with
  | zero =>
      intro attempt t last le _ hf
      exact absurd hf (by omega)
  | succ n ih =>
      intro attempt t last le hsum _
      rw [makeRequestLoop]
      cases hstep : attemptStep env frf attempt t last with
      | success v eT l1 =>
          refine ⟨rfl, rfl, ?_, ?_⟩
          · intro i hi
            simp at hi
          · intro k x _ hlen
            simp only [List.length_cons, List.length_nil] at hlen
            omega
      | failure e eT l1 =>
          cases hr : shouldRetry maxR e attempt with
          | false =>
              simp only [hr, Bool.false_eq_true, if_false]
              refine ⟨rfl, rfl, ?_, ?_⟩
              · intro i hi
                simp at hi
              · intro k x _ hlen
                simp only [List.length_cons, List.length_nil] at hlen
                omega
          | true =>
              have hlt : attempt < maxR := shouldRetry_lt hr
              simp only [hr, if_true, hlt]
              have heT : eT = t + (env attempt).dur := by
                have h := attemptStep_endTime env frf attempt t last
                rw [hstep] at h
                exact h
              obtain ⟨ih1, ih2, ih3, ih4⟩ :=
                ih (attempt + 1) (eT + retryD * attempt) l1 (some e)
                  (by omega) (by omega)
              refine ⟨?_, rfl, ?_, ?_⟩
              · simp only [List.length_cons, ih1]
              · intro i hi
                cases i with
                | zero => simp
                | succ j =>
                    simp only [List.length_cons] at hi
                    have hidx : attempt + (j + 1) = (attempt + 1) + j := by omega
                    rw [List.get?_cons_succ, hidx]
                    exact ih3 j (by omega)
              · intro k x hk hlen
                cases k with
                | zero =>
                    simp only [List.get?_cons_zero, Option.some.injEq] at hk
                    simp only [List.get?_cons_succ, ih2, Nat.add_zero,
                      Option.some.injEq]
                    omega
                | succ j =>
                    simp only [List.get?_cons_succ] at hk
                    simp only [List.length_cons] at hlen
                    have hidx : attempt + (j + 1) = (attempt + 1) + j := by omega
                    rw [List.get?_cons_succ, hidx]
                    exact ih4 j x hk (by omega)

theorem makeRequestLoop_starts_urls (env : Nat → AttemptOutcome)
    (frf : Option Bool) (method maxR retryD u1 u2 : Nat) :
    ∀ fuel attempt t last le,
      (makeRequestLoop env frf u1 method maxR retryD fuel attempt t last le).starts
        = (makeRequestLoop env frf u2 method maxR retryD fuel attempt t last le).starts := by
  intro fuel
  induction fuel with
  | zero => intro attempt t last le; rfl
  | succ n ih =>
      intro attempt t last le
      rw [makeRequestLoop, makeRequestLoop]
      cases attemptStep env frf attempt t last with
      | success v eT l1 => rfl
      | failure e eT l1 =>
          cases hr : shouldRetry maxR e attempt with
          | false => simp [hr]
          | true =>
              by_cases hlt : attempt < maxR <;> simp [hr, hlt, ih]

theorem makeRequestLoop_last_noresolve (env : Nat → AttemptOutcome)
    (frf : Option Bool) (url method maxR retryD : Nat)
    (henv : ∀ k, (env k).resolves = false) :
    ∀ fuel attempt t last le,
      (makeRequestLoop env frf url method maxR retryD
        fuel attempt t last le).lastRequestTime = last := by
  intro fuel
  induction fuel with
  | zero => intro attempt t last le; rfl
  | succ n ih =>
      intro attempt t last le
      rw [makeRequestLoop]
      have h := henv attempt
      cases henv2 : env attempt with
      | netFail c d =>
          simp only [attemptStep, henv2]
          cases hr : shouldRetry maxR (.axiosNet c) attempt with
          | false => simp [hr]
          | true => by_cases hlt : attempt < maxR <;> simp [hr, hlt, ih]
      | httpResponse st d =>
          rw [henv2] at h
          simp only [AttemptOutcome.resolves, decide_eq_false_iff_not] at h
          simp only [attemptStep, henv2, if_neg h]
          cases hr : shouldRetry maxR (.axiosHttp st) attempt with
          | false => simp [hr]
          | true => by_cases hlt : attempt < maxR <;> simp [hr, hlt, ih]

theorem applyRateLimit_ge (now : Nat) (s : NetState)
    (h : s.lastRequestTime ≤ now) :
    s.lastRequestTime + s.rateLimitDelay ≤ applyRateLimit now s := by
  unfold applyRateLimit
  split <;> omega

theorem attemptStep_lastAfter (env : Nat → AttemptOutcome)
    (frf : Option Bool) (attempt t last : Nat) :
    (attemptStep env frf attempt t last).lastAfter
      = if (env attempt).resolves = true then t + (env attempt).dur
        else last := by
  cases henv : env attempt with
  | netFail c d =>
      simp [attemptStep, henv, StepOutcome.lastAfter,
        AttemptOutcome.resolves, AttemptOutcome.dur]
  | httpResponse st d =>
      by_cases h5 : st < 500
      · cases hr : handleResponse frf st <;>
          simp [attemptStep, henv, h5, hr, StepOutcome.lastAfter,
            AttemptOutcome.resolves, AttemptOutcome.dur]
      · simp [attemptStep, henv, h5, StepOutcome.lastAfter,
          AttemptOutcome.resolves, AttemptOutcome.dur]

theorem makeRequestLoop_lastRequestTime (env : Nat → AttemptOutcome)
    (frf : Option Bool) (url method maxR retryD : Nat) :
    ∀ fuel attempt t last le,
      (makeRequestLoop env frf url method maxR retryD
        fuel attempt t last le).lastRequestTime
      = trackLast env attempt
          (makeRequestLoop env frf url method maxR retryD
            fuel attempt t last le).starts last := by
  intro fuel
  induction fuel with
  | zero => intro attempt t last le; rfl
  | succ n ih =>
      intro attempt t last le
      rw [makeRequestLoop]
      cases hstep : attemptStep env frf attempt t last with
      | success v eT l1 =>
          have hl := attemptStep_lastAfter env frf attempt t last
          rw [hstep] at hl
          simp only [StepOutcome.lastAfter] at hl
          simp [trackLast, hl]
      | failure e eT l1 =>
          have hl := attemptStep_lastAfter env frf attempt t last
          rw [hstep] at hl
          simp only [StepOutcome.lastAfter] at hl
          cases hr : shouldRetry maxR e attempt with
          | false => simp [hr, trackLast, hl]
          | true =>
              by_cases hlt : attempt < maxR <;>
                simp [hr, hlt, trackLast, hl, ih]

/-! ### Claim C1 -/

/-- Claim C1.  A logical request whose every attempt receives HTTP 429 is
surfaced after a single attempt with zero retries, exactly like a plain
4xx, while 5xx responses and transport failures are retried up to the
configured maximum of attempts.  The final conjunct shows that
`_shouldRetry` itself would have retried a 429 had the caught error carried
the response: the dedicated 429 branch of `_shouldRetry` is unreachable
because axios (configured with `validateStatus: status < 500`) resolves a
429, and `_handleResponse` rethrows it as a `NetworkError`, which has no
`response` property. -/
theorem C1_rate_limited_response_not_retried :
    (makeRequest env429 none 7 1 2000 s0).starts.length = 1
    ∧ (makeRequest env429 none 7 1 2000 s0).result = .error ⟨none, 7, 1⟩
    ∧ (makeRequest env404 none 7 1 2000 s0).starts.length = 1
    ∧ (makeRequest env503 none 7 1 2000 s0).starts.length = 3
    ∧ (makeRequest envRefused none 7 1 2000 s0).starts.length = 3
    ∧ shouldRetry s0.maxRetries (.axiosHttp 429) 1 = true :=
  ⟨rfl, rfl, rfl, rfl, rfl, rfl⟩

/-! ### Claim C3 -/

/-- Claim C3 counterexample.  With base retry delay 100 and an all-503
environment, the backoff wait preceding attempt 2 is 100 ms — one times
the base delay — whereas the claim demands `2 × base = 200` ms for
attempt 2. -/
theorem C3_counterexample :
    (makeRequest env503 none 7 1 2000 s0).waits.get? 0 = some 100
    ∧ s0.retryDelay * 2 = 200
    ∧ (100 : Nat) ≠ 200 :=
  ⟨rfl, rfl, by decide⟩

/-- Claim C3 (amended).  In the retry loop, the backoff wait preceding
attempt `k ≥ 2` equals `(k − 1)` times the configured base retry delay
(the `i`-th recorded wait, preceding attempt `i + 2`, equals
`retryDelay * (i + 1)`); no backoff wait occurs before the first attempt
(the first attempt starts at the rate-limited entry time) and none occurs
after the final attempt (there is exactly one more attempt than waits). -/
theorem C3_backoff (env : Nat → AttemptOutcome) (frf : Option Bool)
    (url method now : Nat) (s : NetState) (hm : 1 ≤ s.maxRetries) :
    ((makeRequest env frf url method now s).starts.length
        = (makeRequest env frf url method now s).waits.length + 1)
    ∧ (makeRequest env frf url method now s).starts.get? 0
        = some (applyRateLimit now s)
    ∧ ∀ i, i < (makeRequest env frf url method now s).waits.length →
        (makeRequest env frf url method now s).waits.get? i
          = some (s.retryDelay * (i + 1)) := by
  obtain ⟨h1, h2, h3, _⟩ := makeRequestLoop_trace env frf url method
    s.maxRetries s.retryDelay s.maxRetries 1
    (applyRateLimit now { s with requestCount := s.requestCount + 1 })
    s.lastRequestTime none (by omega) (by omega)
  refine ⟨h1, h2, ?_⟩
  intro i hi
  have := h3 i hi
  rw [Nat.add_comm 1 i] at this
  exact this

/-- Witness for `C3_backoff` at a concrete input. -/
theorem C3_backoff_witness :
    1 ≤ s0.maxRetries
    ∧ (makeRequest env503 none 7 1 2000 s0).starts.length
        = (makeRequest env503 none 7 1 2000 s0).waits.length + 1 :=
  ⟨by decide, (C3_backoff env503 none 7 1 2000 s0 (by decide)).1⟩

/-! ### Claim C4 -/

/-- Claim C4 counterexample.  With rate-limit delay 1000 ms, an all-503
environment and 5 ms attempts, the three dispatched attempts of one
logical request start at 2000, 2105 and 2310: the gap between the first
two consecutive dispatched attempts is 105 ms, below the configured
rate-limit delay, because no rate-limit suspension is applied before a
retry. -/
theorem C4_counterexample :
    (makeRequest env503 none 7 1 2000 s0).starts = [2000, 2105, 2310]
    ∧ 2105 - 2000 < s0.rateLimitDelay :=
  ⟨rfl, by decide⟩

/-- Claim C4 (amended).  The rate-limit suspension is applied once before
each logical request and throttles globally per client: the first attempt
is dispatched no earlier than the shared last-dispatch time plus the
configured rate-limit delay, and the attempt schedule is independent of
the target URL.  It is not applied before retries: each subsequent attempt
starts exactly at the previous attempt's end plus the linear backoff, so
the gap between consecutive dispatched attempts of one logical request can
be smaller than the rate-limit delay. -/
theorem C4_rate_limit (env : Nat → AttemptOutcome) (frf : Option Bool)
    (u1 u2 method now : Nat) (s : NetState)
    (hlast : s.lastRequestTime ≤ now) (hm : 1 ≤ s.maxRetries) :
    (∀ x, (makeRequest env frf u1 method now s).starts.get? 0 = some x →
        s.lastRequestTime + s.rateLimitDelay ≤ x)
    ∧ (∀ k x, (makeRequest env frf u1 method now s).starts.get? k = some x →
        k + 1 < (makeRequest env frf u1 method now s).starts.length →
        (makeRequest env frf u1 method now s).starts.get? (k + 1)
          = some (x + (env (k + 1)).dur + s.retryDelay * (k + 1)))
    ∧ (makeRequest env frf u1 method now s).starts
        = (makeRequest env frf u2 method now s).starts := by
  obtain ⟨_, h2, _, h4⟩ := makeRequestLoop_trace env frf u1 method
    s.maxRetries s.retryDelay s.maxRetries 1
    (applyRateLimit now { s with requestCount := s.requestCount + 1 })
    s.lastRequestTime none (by omega) (by omega)
  refine ⟨?_, ?_, ?_⟩
  · intro x hx
    have hx2 := h2.symm.trans hx
    injection hx2 with hx2
    rw [← hx2]
    exact applyRateLimit_ge now s hlast
  · intro k x hk hlen
    have := h4 k x hk hlen
    rw [Nat.add_comm 1 k] at this
    exact this
  · exact makeRequestLoop_starts_urls env frf method s.maxRetries
      s.retryDelay u1 u2 s.maxRetries 1
      (applyRateLimit now { s with requestCount := s.requestCount + 1 })
      s.lastRequestTime none

/-- Witness for `C4_rate_limit` at a concrete input. -/
theorem C4_rate_limit_witness :
    s0.lastRequestTime ≤ 2000 ∧ 1 ≤ s0.maxRetries
    ∧ (makeRequest env503 none 7 1 2000 s0).starts
        = (makeRequest env503 none 9 1 2000 s0).starts :=
  ⟨by decide, by decide,
    (C4_rate_limit env503 none 7 9 1 2000 s0 (by decide) (by decide)).2.2⟩

/-! ### Claim C5 -/

/-- Claim C5 counterexample.  A logical request whose three attempts all
fail at the transport level dispatches three attempts yet leaves the
shared last-dispatch time untouched: `_updateRequestTracking()` runs only
after `axios.request` resolves, which a transport failure never does. -/
theorem C5_counterexample :
    (makeRequest envRefused none 7 1 2000 s0).starts.length = 3
    ∧ s0.lastRequestTime = 0
    ∧ (makeRequest envRefused none 7 1 2000 s0).final.lastRequestTime = 0 :=
  ⟨rfl, rfl, rfl⟩

/-- Claim C5 (amended).  The shared last-dispatch time is updated by
exactly those attempts on which the transport delivered a response that
axios resolves (status < 500, including terminal 4xx and 429 attempts),
and is left unchanged by attempts that fail at the transport level or
receive a 5xx; besides this timestamp and the request counter
(incremented once per logical request) no executor state is mutated.
The final conjunct states the update rule for every run: the final
timestamp is the scan (`trackLast`) of all dispatched attempts, in which
each resolving attempt sets it to that attempt's completion time and
every other attempt leaves it unchanged; the two preceding conjuncts
instantiate this rule at a resolving first attempt (even a 4xx) and at a
run with no resolving attempt. -/
theorem C5_last_dispatch (env : Nat → AttemptOutcome) (frf : Option Bool)
    (url method now : Nat) (s : NetState) (hm : 1 ≤ s.maxRetries) :
    ((makeRequest env frf url method now s).final.requestCount
        = s.requestCount + 1)
    ∧ (makeRequest env frf url method now s).final.rateLimitDelay
        = s.rateLimitDelay
    ∧ (makeRequest env frf url method now s).final.maxRetries = s.maxRetries
    ∧ (makeRequest env frf url method now s).final.retryDelay = s.retryDelay
    ∧ (∀ st dur, env 1 = .httpResponse st dur → st < 500 →
        (makeRequest env frf url method now s).final.lastRequestTime
          = applyRateLimit now s + dur)
    ∧ ((∀ k, (env k).resolves = false) →
        (makeRequest env frf url method now s).final.lastRequestTime
          = s.lastRequestTime)
    ∧ (makeRequest env frf url method now s).final.lastRequestTime
        = trackLast env 1 (makeRequest env frf url method now s).starts
            s.lastRequestTime := by
  refine ⟨rfl, rfl, rfl, rfl, ?_, ?_, ?_⟩
  · intro st dur henv h5
    obtain ⟨m, hme⟩ : ∃ m, s.maxRetries = m + 1 := ⟨s.maxRetries - 1, by omega⟩
    show (makeRequestLoop env frf url method s.maxRetries s.retryDelay
        s.maxRetries 1 (applyRateLimit now s) s.lastRequestTime
        none).lastRequestTime = applyRateLimit now s + dur
    rw [hme, makeRequestLoop]
    simp only [attemptStep, henv, if_pos h5]
    cases hr : handleResponse frf st with
    | ok v => rfl
    | error e =>
        have he := handleResponse_error frf st e hr
        subst he
        simp only [shouldRetry_networkError, Bool.false_eq_true, if_false]
  · intro henv
    exact makeRequestLoop_last_noresolve env frf url method s.maxRetries
      s.retryDelay henv s.maxRetries 1
      (applyRateLimit now { s with requestCount := s.requestCount + 1 })
      s.lastRequestTime none
  · exact makeRequestLoop_lastRequestTime env frf url method s.maxRetries
      s.retryDelay s.maxRetries 1
      (applyRateLimit now { s with requestCount := s.requestCount + 1 })
      s.lastRequestTime none

/-- Witness for `C5_last_dispatch` at a concrete input: a run whose first
attempt gets a 503 (retried, no update) and whose second attempt gets a
404 (axios resolves, terminal): the mid-run resolving attempt sets the
timestamp to its completion time 2110. -/
theorem C5_last_dispatch_witness :
    1 ≤ s0.maxRetries
    ∧ (makeRequest envMixed none 7 1 2000 s0).final.lastRequestTime
        = trackLast envMixed 1 (makeRequest envMixed none 7 1 2000 s0).starts
            s0.lastRequestTime
    ∧ (makeRequest envMixed none 7 1 2000 s0).starts = [2000, 2105]
    ∧ (makeRequest envMixed none 7 1 2000 s0).final.lastRequestTime = 2110 :=
  ⟨by decide,
    (C5_last_dispatch envMixed none 7 1 2000 s0 (by decide)).2.2.2.2.2.2,
    rfl, rfl⟩

/-! ## Delivery tracker: `WebSocketManager.sendMessage`,
`_waitForAcknowledgment`, `_handleAcknowledgment` -/

/-- Association-list lookup modelling `Map.prototype.get`. -/
def mapLookup (id : Nat) : List (Nat × Nat) → Option Nat
  | [] => none
  | (k, v) :: t => if k = id then some v else mapLookup id t

/-- `Map.prototype.delete`. -/
def mapErase (id : Nat) (l : List (Nat × Nat)) : List (Nat × Nat) :=
  l.filter (fun p => p.1 ≠ id)

/-- `Map.prototype.set`. -/
def mapSet (id v : Nat) (l : List (Nat × Nat)) : List (Nat × Nat) :=
  (id, v) :: mapErase id l

theorem mapLookup_mapSet_self (id v : Nat) (l : List (Nat × Nat)) :
    mapLookup id (mapSet id v l) = some v := by
  simp [mapSet, mapLookup]

theorem mapLookup_mapErase_self (id : Nat) (l : List (Nat × Nat)) :
    mapLookup id (mapErase id l) = none := by
  induction l with
  | nil => rfl
  | cons p t ih =>
      by_cases h : p.1 = id
      · simpa [mapErase, h] using ih
      · simpa [mapErase, mapLookup, h] using ih

/-- Settlement state of the promise returned by `_waitForAcknowledgment`:
in JavaScript a promise settles at most once, so `resolve`/`reject` on an
already settled promise is a no-op. -/
inductive FutureState
  | pending
  | resolvedAck
  | rejectedTimeout
deriving DecidableEq, Repr

/-- One caller of `sendMessage` awaiting acknowledgment: the awaited
message id, the promise settlement state, whether the 10-second
acknowledgment `setTimeout` is still armed, and whether the `ackHandler`
listener is still registered on the `messageAcknowledged` event. -/
structure Waiter where
  msgId : Nat
  future : FutureState
  timerArmed : Bool
  listening : Bool
deriving DecidableEq, Repr

/-- The delivery-tracking state of a `WebSocketManager`:
`pendingMessages` (id ↦ payload), the waiters created by `sendMessage`,
and the ids of the `messageAcknowledged` events emitted so far. -/
structure TrackerState where
  pendingMessages : List (Nat × Nat)
  waiters : List Waiter
  acknowledgedEmits : List Nat
deriving DecidableEq, Repr

/-- The record stored in `pendingMessages` by `sendMessage`:
`{ type: 'message', data, timestamp, id }`.  Only the fields the tracker
reads are modelled. -/
structure StoredMessage where
  id : Nat
  payload : Nat
deriving DecidableEq, Repr

/-- The `message_id` property that `_waitForAcknowledgment`'s `ackHandler`
reads from the emitted record.  The stored record has fields
`type`, `data`, `timestamp` and `id` but no `message_id`, so in JavaScript
the read yields `undefined`. -/
def StoredMessage.message_id (_ : StoredMessage) : Option Nat := none

/-- `sendMessage`: store the pending record under the generated id and set
up `_waitForAcknowledgment` — a pending promise, an armed 10-second
timeout, and an `ackHandler` listening on `messageAcknowledged`. -/
def sendMessageRegister (id payload : Nat) (s : TrackerState) : TrackerState :=
  { pendingMessages := mapSet id payload s.pendingMessages,
    waiters := s.waiters ++ [⟨id, .pending, true, true⟩],
    acknowledgedEmits := s.acknowledgedEmits }

/-- Effect of the acknowledgment `setTimeout` callback firing for `id`:
`reject(new NetworkError('Message acknowledgment timeout'))`.  The
listener is NOT removed (no `removeListener` on this path) and
`pendingMessages` is NOT touched. -/
def timeoutWaiterUpdate (id : Nat) (w : Waiter) : Waiter :=
  if w.msgId = id ∧ w.timerArmed = true then
    { w with timerArmed := false,
             future := if w.future = .pending then .rejectedTimeout
                       else w.future }
  else w

/-- The acknowledgment timeout for `id` fires. -/
def ackTimeoutFire (id : Nat) (s : TrackerState) : TrackerState :=
  { s with waiters := s.waiters.map (timeoutWaiterUpdate id) }

/-- Effect of one `ackHandler` invocation during the `messageAcknowledged`
emission: the handler compares `message.message_id === messageId` on the
emitted stored record; on a match it clears the timeout, removes itself
and resolves.  Because the stored record has no `message_id` property, the
comparison never succeeds. -/
def ackWaiterUpdate (stored : StoredMessage) (w : Waiter) : Waiter :=
  if w.listening = true ∧ stored.message_id = some w.msgId then
    { w with timerArmed := false, listening := false,
             future := if w.future = .pending then .resolvedAck
                       else w.future }
  else w

theorem ackWaiterUpdate_eq (stored : StoredMessage) (w : Waiter) :
    ackWaiterUpdate stored w = w := by
  simp [ackWaiterUpdate, StoredMessage.message_id]

theorem map_ackWaiterUpdate (stored : StoredMessage) (l : List Waiter) :
    l.map (ackWaiterUpdate stored) = l := by
  induction l with
  | nil => rfl
  | cons w t ih => simp [ackWaiterUpdate_eq, ih]

/-- `WebSocketManager._handleAcknowledgment(message)` for an inbound
`acknowledgment` frame carrying `message_id = ackId`: if a pending record
exists for that id, delete it and emit `messageAcknowledged` with the
stored record, running every registered `ackHandler`; otherwise do
nothing. -/
def handleAcknowledgment (ackId : Nat) (s : TrackerState) : TrackerState :=
  match mapLookup ackId s.pendingMessages with
  | some payload =>
      { pendingMessages := mapErase ackId s.pendingMessages,
        waiters := s.waiters.map (ackWaiterUpdate ⟨ackId, payload⟩),
        acknowledgedEmits := s.acknowledgedEmits ++ [ackId] }
  | none => s

theorem handleAcknowledgment_found (ackId payload : Nat) (s : TrackerState)
    (h : mapLookup ackId s.pendingMessages = some payload) :
    handleAcknowledgment ackId s
      = ⟨mapErase ackId s.pendingMessages, s.waiters,
          s.acknowledgedEmits ++ [ackId]⟩ := by
  unfold handleAcknowledgment
  rw [h]
  simp [map_ackWaiterUpdate]

theorem handleAcknowledgment_missing (ackId : Nat) (s : TrackerState)
    (h : mapLookup ackId s.pendingMessages = none) :
    handleAcknowledgment ackId s = s := by
  unfold handleAcknowledgment
  rw [h]

theorem timeoutWaiterUpdate_ne {id : Nat} {w : Waiter} (h : w.msgId ≠ id) :
    timeoutWaiterUpdate id w = w := by
  simp [timeoutWaiterUpdate, h]

/-- The empty tracker of a freshly constructed manager. -/
def trackerInit : TrackerState := ⟨[], [], []⟩

/-! ### Claim C2 -/

/-- Claim C2 counterexample.  After registering message 1 and letting its
acknowledgment timeout fire, the caller's future is rejected with the
timeout error, but the pending record is still present in
`pendingMessages` — the timeout callback only rejects the promise and
never deletes the record, contradicting the claim that on timeout expiry
the pending record is removed. -/
theorem C2_counterexample :
    (ackTimeoutFire 1 (sendMessageRegister 1 42 trackerInit)).pendingMessages
        = [(1, 42)]
    ∧ (ackTimeoutFire 1 (sendMessageRegister 1 42 trackerInit)).waiters
        = [⟨1, .rejectedTimeout, false, true⟩] := by
  constructor
  · rfl
  · simp [ackTimeoutFire, sendMessageRegister, trackerInit, timeoutWaiterUpdate]

/-- Claim C2 (amended).  For a freshly registered identifier: on timeout
expiry the caller's future rejects with the timeout-classified error, but
the pending record is NOT removed; an acknowledgment arriving after the
timeout removes the record (exactly once — a further acknowledgment is a
silent no-op) and emits the `messageAcknowledged` event, but does not
resolve the already-rejected future, so the future settles exactly once. -/
theorem C2_ack_timeout (id payload : Nat) (s : TrackerState)
    (hfresh : ∀ w ∈ s.waiters, w.msgId ≠ id) :
    (mapLookup id
      (ackTimeoutFire id (sendMessageRegister id payload s)).pendingMessages
        = some payload)
    ∧ (∀ w ∈ (ackTimeoutFire id (sendMessageRegister id payload s)).waiters,
        w.msgId = id → w.future = .rejectedTimeout ∧ w.timerArmed = false)
    ∧ (∃ w ∈ (ackTimeoutFire id (sendMessageRegister id payload s)).waiters,
        w.msgId = id)
    ∧ (mapLookup id (handleAcknowledgment id
        (ackTimeoutFire id (sendMessageRegister id payload s))).pendingMessages
        = none)
    ∧ ((handleAcknowledgment id
        (ackTimeoutFire id (sendMessageRegister id payload s))).acknowledgedEmits
        = (ackTimeoutFire id (sendMessageRegister id payload s)).acknowledgedEmits
            ++ [id])
    ∧ (∀ w ∈ (handleAcknowledgment id
        (ackTimeoutFire id (sendMessageRegister id payload s))).waiters,
        w.msgId = id → w.future = .rejectedTimeout)
    ∧ handleAcknowledgment id (handleAcknowledgment id
        (ackTimeoutFire id (sendMessageRegister id payload s)))
        = handleAcknowledgment id
            (ackTimeoutFire id (sendMessageRegister id payload s)) := by
  have hlp : mapLookup id
      (ackTimeoutFire id (sendMessageRegister id payload s)).pendingMessages
      = some payload := by
    show mapLookup id (mapSet id payload s.pendingMessages) = some payload
    exact mapLookup_mapSet_self id payload s.pendingMessages
  have hfound := handleAcknowledgment_found id payload
    (ackTimeoutFire id (sendMessageRegister id payload s)) hlp
  have hwaiters : ∀ w ∈
      (ackTimeoutFire id (sendMessageRegister id payload s)).waiters,
      w.msgId = id → w.future = .rejectedTimeout ∧ w.timerArmed = false := by
    intro w hw hid
    simp only [ackTimeoutFire, sendMessageRegister, List.map_append,
      List.mem_append, List.map_cons, List.map_nil, List.mem_map,
      List.mem_cons, List.not_mem_nil, or_false] at hw
    rcases hw with ⟨a, ha, rfl⟩ | hw
    · rw [timeoutWaiterUpdate_ne (hfresh a ha)] at hid ⊢
      exact absurd hid (hfresh a ha)
    · rw [hw]
      simp [timeoutWaiterUpdate]
  refine ⟨hlp, hwaiters, ?_, ?_, ?_, ?_, ?_⟩
  · refine ⟨timeoutWaiterUpdate id ⟨id, .pending, true, true⟩, ?_, ?_⟩
    · simp [ackTimeoutFire, sendMessageRegister]
    · simp [timeoutWaiterUpdate]
  · rw [hfound]
    exact mapLookup_mapErase_self id _
  · rw [hfound]
  · intro w hw hid
    rw [hfound] at hw
    exact (hwaiters w hw hid).1
  · apply handleAcknowledgment_missing
    rw [hfound]
    exact mapLookup_mapErase_self id _

/-- Witness for `C2_ack_timeout` at a concrete input. -/
theorem C2_ack_timeout_witness :
    (∀ w ∈ trackerInit.waiters, w.msgId ≠ 1)
    ∧ mapLookup 1
        (ackTimeoutFire 1 (sendMessageRegister 1 42 trackerInit)).pendingMessages
        = some 42 :=
  ⟨by simp [trackerInit], (C2_ack_timeout 1 42 trackerInit (by simp [trackerInit])).1⟩

/-! ## Connection state machine: reconnect scheduling
(`WebSocketManager._scheduleReconnect`, `_handleWebSocketClose`) -/

/-- Events emitted by the `WebSocketManager` (only those the claims
observe). -/
inductive WSEvent
  | connectingEv
  | connectEv
  | connectionEv
  | closeEv (code : Nat)
  | errorEv
  | disconnectEv
deriving DecidableEq, Repr

/-- The reconnect-relevant state of a `WebSocketManager`:
`scheduledDelays` records the delay of every `setTimeout` armed by
`_scheduleReconnect`, in order. -/
structure ReconnectState where
  isConnected : Bool
  reconnectAttempts : Nat
  maxReconnectAttempts : Nat
  reconnectDelay : Nat
  scheduledDelays : List Nat
  emitted : List WSEvent
deriving DecidableEq, Repr

/-- `WebSocketManager._scheduleReconnect()`: increment the attempt counter,
then arm a timer with delay `reconnectDelay * 2 ^ (reconnectAttempts - 1)`. -/
def scheduleReconnect (s : ReconnectState) : ReconnectState :=
  let attempts := s.reconnectAttempts + 1
  { s with reconnectAttempts := attempts,
           scheduledDelays := s.scheduledDelays
             ++ [s.reconnectDelay * 2 ^ (attempts - 1)] }

/-- `WebSocketManager._handleWebSocketClose(code, reason)`: clear the
connected flag, emit `close`, and schedule a reconnect when auto-reconnect
is enabled and attempts remain. -/
def handleWebSocketClose (autoReconnect : Bool) (code : Nat)
    (s : ReconnectState) : ReconnectState :=
  let s1 := { s with isConnected := false,
                     emitted := s.emitted ++ [.closeEv code] }
  if autoReconnect = true ∧ s1.reconnectAttempts < s1.maxReconnectAttempts then
    scheduleReconnect s1
  else s1

/-- `n` consecutive transport closes, each handled by
`_handleWebSocketClose` (each scheduled reconnect fails again with a
close). -/
def closeSeq (autoReconnect : Bool) (code : Nat) :
    Nat → ReconnectState → ReconnectState
  | 0, s => s
  | n + 1, s => handleWebSocketClose autoReconnect code
      (closeSeq autoReconnect code n s)

theorem handleWebSocketClose_config (ar : Bool) (c : Nat)
    (s : ReconnectState) :
    (handleWebSocketClose ar c s).reconnectDelay = s.reconnectDelay
    ∧ (handleWebSocketClose ar c s).maxReconnectAttempts
        = s.maxReconnectAttempts := by
  unfold handleWebSocketClose scheduleReconnect
  dsimp only
  split <;> exact ⟨rfl, rfl⟩

theorem closeSeq_config (ar : Bool) (c n : Nat) (s : ReconnectState) :
    (closeSeq ar c n s).reconnectDelay = s.reconnectDelay
    ∧ (closeSeq ar c n s).maxReconnectAttempts = s.maxReconnectAttempts := by
  induction n with
  | zero => exact ⟨rfl, rfl⟩
  | succ m ih =>
      obtain ⟨ih1, ih2⟩ := ih
      unfold closeSeq
      obtain ⟨h1, h2⟩ := handleWebSocketClose_config ar c (closeSeq ar c m s)
      exact ⟨h1.trans ih1, h2.trans ih2⟩

theorem closeSeq_delays (c n : Nat) (s : ReconnectState)
    (h0 : s.reconnectAttempts = 0) (hn : n ≤ s.maxReconnectAttempts) :
    (closeSeq true c n s).reconnectAttempts = n
    ∧ (closeSeq true c n s).scheduledDelays
        = s.scheduledDelays
            ++ (List.range n).map (fun k => s.reconnectDelay * 2 ^ k) := by
  induction n with
  | zero => simpa [closeSeq] using h0
  | succ m ih =>
      obtain ⟨ih1, ih2⟩ := ih (by omega)
      obtain ⟨hc1, hc2⟩ := closeSeq_config true c m s
      unfold closeSeq handleWebSocketClose
      rw [if_pos (by constructor <;> simp [ih1, hc2] <;> omega)]
      unfold scheduleReconnect
      refine ⟨by simp [ih1], ?_⟩
      simp only [ih1, ih2, hc1, hc2, List.range_succ, List.map_append,
        List.map_cons, List.map_nil, List.append_assoc, Nat.add_sub_cancel]

/-- A close handled once the attempt counter has reached the maximum:
nothing is scheduled and only the plain `close` event is emitted. -/
theorem handleWebSocketClose_at_max (c : Nat) (s : ReconnectState)
    (h : s.maxReconnectAttempts ≤ s.reconnectAttempts) :
    (handleWebSocketClose true c s).scheduledDelays = s.scheduledDelays
    ∧ (handleWebSocketClose true c s).reconnectAttempts = s.reconnectAttempts
    ∧ (handleWebSocketClose true c s).emitted
        = s.emitted ++ [WSEvent.closeEv c] := by
  unfold handleWebSocketClose
  rw [if_neg (by simp; omega)]
  exact ⟨rfl, rfl, rfl⟩

/-! ### Claim C6 -/

/-- A handle whose reconnect-attempt counter has reached the maximum. -/
def sAtMax : ReconnectState := ⟨false, 5, 5, 1000, [], []⟩

/-- Claim C6 counterexample.  When a close arrives with the attempt
counter at the maximum, no reconnect is scheduled — but no terminal
connection error event fires either: the handler emits only the ordinary
`close` event. -/
theorem C6_counterexample :
    (handleWebSocketClose true 1006 sAtMax).scheduledDelays = []
    ∧ (handleWebSocketClose true 1006 sAtMax).emitted = [WSEvent.closeEv 1006]
    ∧ WSEvent.errorEv ∉ (handleWebSocketClose true 1006 sAtMax).emitted := by
  refine ⟨rfl, rfl, ?_⟩
  decide

/-- Claim C6 (amended).  With auto-reconnect enabled, the `n`-th scheduled
reconnect delay equals `reconnectDelay * 2 ^ (n - 1)`, so consecutive
delays are monotonically non-decreasing; the attempt counter never exceeds
the configured maximum, and once it has reached the maximum a further
close schedules no reconnect — but no terminal connection error event
fires: only the ordinary `close` event is emitted. -/
theorem C6_reconnect_backoff (c n : Nat) (s : ReconnectState)
    (h0 : s.reconnectAttempts = 0) (hsched : s.scheduledDelays = [])
    (hn : n ≤ s.maxReconnectAttempts) :
    ((closeSeq true c n s).scheduledDelays
        = (List.range n).map (fun k => s.reconnectDelay * 2 ^ k))
    ∧ (closeSeq true c n s).reconnectAttempts = n
    ∧ (∀ i x y, (closeSeq true c n s).scheduledDelays.get? i = some x →
        (closeSeq true c n s).scheduledDelays.get? (i + 1) = some y → x ≤ y)
    ∧ (∀ s2 : ReconnectState,
        s2.reconnectAttempts ≤ s2.maxReconnectAttempts →
        (handleWebSocketClose true c s2).reconnectAttempts
          ≤ s2.maxReconnectAttempts)
    ∧ ∀ s2 : ReconnectState, s2.maxReconnectAttempts ≤ s2.reconnectAttempts →
        (handleWebSocketClose true c s2).scheduledDelays = s2.scheduledDelays
        ∧ (handleWebSocketClose true c s2).emitted
            = s2.emitted ++ [WSEvent.closeEv c] := by
  obtain ⟨hA, hD⟩ := closeSeq_delays c n s h0 hn
  rw [hsched] at hD
  simp only [List.nil_append] at hD
  refine ⟨hD, hA, ?_, ?_, ?_⟩
  · intro i x y hx hy
    rw [hD, List.get?_map] at hx hy
    cases hri : (List.range n).get? i with
    | none => rw [hri] at hx; cases hx
    | some j =>
        rw [hri] at hx
        obtain ⟨hleni, hgeti⟩ := List.get?_eq_some.mp hri
        rw [List.get_range] at hgeti
        cases hri2 : (List.range n).get? (i + 1) with
        | none => rw [hri2] at hy; cases hy
        | some j2 =>
            rw [hri2] at hy
            obtain ⟨hleni2, hgeti2⟩ := List.get?_eq_some.mp hri2
            rw [List.get_range] at hgeti2
            injection hx with hx
            injection hy with hy
            rw [← hx, ← hy, ← hgeti, ← hgeti2]
            exact Nat.mul_le_mul_left _ (Nat.pow_le_pow_right (by omega) (by omega))
  · intro s2 h2
    unfold handleWebSocketClose
    dsimp only
    split
    · simp only [scheduleReconnect]
      omega
    · simpa using h2
  · intro s2 h2
    exact ⟨(handleWebSocketClose_at_max c s2 h2).1,
      (handleWebSocketClose_at_max c s2 h2).2.2⟩

/-- A fresh auto-reconnecting handle. -/
def sRe : ReconnectState := ⟨true, 0, 5, 1000, [], []⟩

/-- Witness for `C6_reconnect_backoff` at a concrete input. -/
theorem C6_reconnect_backoff_witness :
    sRe.reconnectAttempts = 0 ∧ sRe.scheduledDelays = []
    ∧ 2 ≤ sRe.maxReconnectAttempts
    ∧ (closeSeq true 1006 2 sRe).scheduledDelays
        = (List.range 2).map (fun k => sRe.reconnectDelay * 2 ^ k) :=
  ⟨rfl, rfl, by decide,
    (C6_reconnect_backoff 1006 2 sRe rfl rfl (by decide)).1⟩

/-! ## Connection state machine: heartbeat cycle
(`WebSocketManager._startHeartbeat`, `_startHeartbeatTimeout`,
`_handleHeartbeat`) -/

/-- One `setTimeout` handle armed by `_startHeartbeatTimeout`. -/
structure HBTimer where
  deadline : Nat
  cancelled : Bool
deriving DecidableEq, Repr

/-- The heartbeat-relevant state of a `WebSocketManager`: all armed
heartbeat-timeout timers in arming order, the index the field
`this.heartbeatTimeout` currently references, the send times of heartbeat
payloads, and the number of disconnect-then-reconnect sequences triggered
by a heartbeat timeout. -/
structure HBState where
  isConnected : Bool
  timers : List HBTimer
  hbRef : Option Nat
  sends : List Nat
  teardownReconnects : Nat
deriving DecidableEq, Repr

/-- The hard-coded heartbeat interval (`setInterval(..., 30000)`). -/
def hbIntervalMs : Nat := 30000

/-- The hard-coded heartbeat timeout (`setTimeout(..., 10000)`). -/
def hbTimeoutMs : Nat := 10000

/-- `clearTimeout` on the timer at index `i`. -/
def clearTimer : Nat → List HBTimer → List HBTimer
  | _, [] => []
  | 0, t :: ts => { t with cancelled := true } :: ts
  | i + 1, t :: ts => t :: clearTimer i ts

/-- `WebSocketManager._startHeartbeatTimeout()` at time `now`: arm a fresh
10-second timer and point `this.heartbeatTimeout` at it (the previous
reference is overwritten, not cleared). -/
def startHeartbeatTimeout (now : Nat) (s : HBState) : HBState :=
  { s with timers := s.timers ++ [⟨now + hbTimeoutMs, false⟩],
           hbRef := some s.timers.length }

/-- One firing of the `setInterval` callback of `_startHeartbeat` at time
`now`: while connected, send a heartbeat payload and arm the timeout. -/
def heartbeatIntervalTick (now : Nat) (s : HBState) : HBState :=
  if s.isConnected = true then
    startHeartbeatTimeout now { s with sends := s.sends ++ [now] }
  else s

/-- `WebSocketManager._handleHeartbeat(message)`: if a heartbeat timeout
reference exists, clear that timer and arm a fresh one. -/
def handleHeartbeat (now : Nat) (s : HBState) : HBState :=
  match s.hbRef with
  | some i =>
      startHeartbeatTimeout now { s with timers := clearTimer i s.timers }
  | none => s

/-- `WebSocketManager.disconnect()`: a no-op when not connected; otherwise
`_stopHeartbeat` clears the referenced timer and the transport is
closed. -/
def wsDisconnect (s : HBState) : HBState :=
  if s.isConnected = true then
    { s with isConnected := false,
             timers := (match s.hbRef with
                        | some j => clearTimer j s.timers
                        | none => s.timers),
             hbRef := none }
  else s

/-- The Node event loop fires the heartbeat-timeout timer at index `i` at
time `now`: a timer fires only if it is armed, uncancelled, and its
deadline has arrived; the callback runs
`this.disconnect().then(() => this.connect())`. -/
def hbTimeoutFire (i now : Nat) (s : HBState) : HBState :=
  match s.timers.get? i with
  | some t =>
      if t.cancelled = false ∧ t.deadline ≤ now then
        { wsDisconnect s with teardownReconnects := s.teardownReconnects + 1 }
      else s
  | none => s

theorem clearTimer_length (i : Nat) (l : List HBTimer) :
    (clearTimer i l).length = l.length := by
  induction l generalizing i with
  | nil => cases i <;> rfl
  | cons t ts ih =>
      cases i with
      | zero => rfl
      | succ j => simp [clearTimer, ih]

theorem clearTimer_get?_self (i : Nat) (l : List HBTimer) :
    (clearTimer i l).get? i
      = (l.get? i).map (fun t => { t with cancelled := true }) := by
  induction l generalizing i with
  | nil => cases i <;> rfl
  | cons t ts ih =>
      cases i with
      | zero => rfl
      | succ j => simpa [clearTimer] using ih j

/-! ### Claim C7 -/

/-- Claim C7.  While the connection is open, each firing of the heartbeat
interval sends a heartbeat payload and arms a strictly shorter timeout;
receiving any heartbeat acknowledgment disarms the armed timer, after
which that timer can never fire; and if no acknowledgment arrives, the
timer fires at its deadline, tearing the connection down and initiating a
disconnect-then-reconnect sequence. -/
theorem C7_heartbeat_cycle (s : HBState) (t t2 : Nat)
    (hconn : s.isConnected = true) :
    ((heartbeatIntervalTick t s).sends = s.sends ++ [t])
    ∧ hbTimeoutMs < hbIntervalMs
    ∧ (heartbeatIntervalTick t s).timers.get? s.timers.length
        = some ⟨t + hbTimeoutMs, false⟩
    ∧ (heartbeatIntervalTick t s).hbRef = some s.timers.length
    ∧ (handleHeartbeat t2 (heartbeatIntervalTick t s)).timers.get?
        s.timers.length = some ⟨t + hbTimeoutMs, true⟩
    ∧ (∀ now, hbTimeoutFire s.timers.length now
        (handleHeartbeat t2 (heartbeatIntervalTick t s))
        = handleHeartbeat t2 (heartbeatIntervalTick t s))
    ∧ (hbTimeoutFire s.timers.length (t + hbTimeoutMs)
        (heartbeatIntervalTick t s)).teardownReconnects
        = s.teardownReconnects + 1
    ∧ (hbTimeoutFire s.timers.length (t + hbTimeoutMs)
        (heartbeatIntervalTick t s)).isConnected = false := by
  have hs1 : heartbeatIntervalTick t s
      = { s with sends := s.sends ++ [t],
                 timers := s.timers ++ [⟨t + hbTimeoutMs, false⟩],
                 hbRef := some s.timers.length } := by
    simp [heartbeatIntervalTick, hconn, startHeartbeatTimeout]
  have h3 : (heartbeatIntervalTick t s).timers.get? s.timers.length
      = some ⟨t + hbTimeoutMs, false⟩ := by
    rw [hs1]
    exact List.get?_concat_length s.timers ⟨t + hbTimeoutMs, false⟩
  have h5 : (handleHeartbeat t2 (heartbeatIntervalTick t s)).timers.get?
      s.timers.length = some ⟨t + hbTimeoutMs, true⟩ := by
    rw [hs1]
    show ((clearTimer s.timers.length
        (s.timers ++ [(⟨t + hbTimeoutMs, false⟩ : HBTimer)]))
        ++ [(⟨t2 + hbTimeoutMs, false⟩ : HBTimer)]).get? s.timers.length
      = some ⟨t + hbTimeoutMs, true⟩
    rw [List.get?_append (by
      rw [clearTimer_length, List.length_append]
      simp)]
    rw [clearTimer_get?_self]
    rw [List.get?_concat_length]
    rfl
  refine ⟨by rw [hs1], by decide, h3, by rw [hs1], h5, ?_, ?_, ?_⟩
  · intro now
    unfold hbTimeoutFire
    rw [h5]
    simp
  · unfold hbTimeoutFire
    rw [h3]
    simp [hs1, wsDisconnect]
  · unfold hbTimeoutFire
    rw [h3]
    simp [hs1, wsDisconnect, hconn]

/-- A freshly opened connection with no armed timers. -/
def hb0 : HBState := ⟨true, [], none, [], 0⟩

/-- Witness for `C7_heartbeat_cycle` at a concrete input. -/
theorem C7_heartbeat_cycle_witness :
    hb0.isConnected = true
    ∧ (heartbeatIntervalTick 0 hb0).sends = hb0.sends ++ [0] :=
  ⟨rfl, (C7_heartbeat_cycle hb0 0 3 rfl).1⟩

/-! ## Event dispatcher: `WebSocketManager._handleWebSocketMessage` -/

/-- An inbound channel frame as seen by `_handleWebSocketMessage`: either
`JSON.parse` throws on it, or it parses to an envelope with a discriminant
`type` field (discriminants encoded as numbers: `message` = 0, `typing` =
1, `read_receipt` = 2, `online_status` = 3, `acknowledgment` = 4,
`heartbeat` = 5, anything else unknown). -/
inductive FrameMsg
  | malformed
  | typed (msgType : Nat) (payload : Nat)
deriving DecidableEq, Repr

/-- One event subscriber registered on the emitter, with whether its
handler throws when invoked for the dispatched event. -/
structure Subscriber where
  sid : Nat
  throwsOnEvent : Bool
deriving DecidableEq, Repr

/-- Node's `EventEmitter.emit`: listeners run synchronously in
registration order; an exception thrown by a listener propagates out of
`emit` immediately, so the remaining listeners are skipped.  Returns the
ids of the handlers that were invoked and whether an exception escaped. -/
def emitRun : List Subscriber → List Nat × Bool
  | [] => ([], false)
  | h :: rest =>
      if h.throwsOnEvent = true then ([h.sid], true)
      else (h.sid :: (emitRun rest).1, (emitRun rest).2)

/-- What `_handleWebSocketMessage` logged and whether an exception escaped
it. -/
inductive DispatchLog
  | parseFailure
  | unknownKind (msgType : Nat)
  | subscriberFailure
deriving DecidableEq, Repr

/-- Result of dispatching one frame. -/
structure DispatchResult where
  ran : List Nat
  logged : List DispatchLog
  raised : Bool
deriving DecidableEq, Repr

/-- Whether the discriminant is one of the six `switch` cases. -/
def knownKind (msgType : Nat) : Bool := msgType < 6

/-- `WebSocketManager._handleWebSocketMessage(data)`: the whole body —
`JSON.parse` plus the `switch` including the handler emits — sits inside
one `try`/`catch` whose handler only logs.  A parse failure is logged and
dropped; an unknown discriminant is logged and dropped; a known
discriminant emits to the subscribers of the corresponding event, and an
exception from a subscriber is caught by the same frame-level `catch`. -/
def handleWebSocketMessage (subs : List Subscriber) (frame : FrameMsg) :
    DispatchResult :=
  match frame with
  | .malformed => ⟨[], [.parseFailure], false⟩
  | .typed msgType _ =>
      if knownKind msgType = true then
        if (emitRun subs).2 = true then
          ⟨(emitRun subs).1, [.subscriberFailure], false⟩
        else ⟨(emitRun subs).1, [], false⟩
      else ⟨[], [.unknownKind msgType], false⟩

theorem emitRun_nothrow (subs : List Subscriber)
    (h : ∀ x ∈ subs, x.throwsOnEvent = false) :
    emitRun subs = (subs.map Subscriber.sid, false) := by
  induction subs with
  | nil => rfl
  | cons a rest ih =>
      have ha : a.throwsOnEvent = false := h a (by simp)
      have hrest := ih (fun x hx => h x (by simp [hx]))
      simp [emitRun, ha, hrest]

theorem emitRun_throws (pre : List Subscriber) (w : Subscriber)
    (post : List Subscriber) (hpre : ∀ x ∈ pre, x.throwsOnEvent = false)
    (hw : w.throwsOnEvent = true) :
    emitRun (pre ++ w :: post)
      = (pre.map Subscriber.sid ++ [w.sid], true) := by
  induction pre with
  | nil => simp [emitRun, hw]
  | cons a rest ih =>
      have ha : a.throwsOnEvent = false := hpre a (by simp)
      have hrest := ih (fun x hx => hpre x (by simp [hx]))
      simp [emitRun, ha, hrest]

/-! ### Claim C8 -/

/-- Two subscribers of the message event: the first one throws. -/
def demoSubs : List Subscriber := [⟨1, true⟩, ⟨2, false⟩]

/-- Claim C8 counterexample.  With two subscribers for a known event where
the first one's handler throws, dispatching the frame runs only subscriber
1 — subscriber 2's handler is skipped, and the exception is caught (and
logged) once at the frame level, not per-subscriber, contradicting the
claim that the other subscribers' handlers for the same event still
run. -/
theorem C8_counterexample :
    (handleWebSocketMessage demoSubs (.typed 0 0)).ran = [1]
    ∧ (handleWebSocketMessage demoSubs (.typed 0 0)).logged
        = [DispatchLog.subscriberFailure]
    ∧ demoSubs.map Subscriber.sid = [1, 2]
    ∧ (2 : Nat) ∉ (handleWebSocketMessage demoSubs (.typed 0 0)).ran := by
  refine ⟨rfl, rfl, rfl, ?_⟩
  decide

/-- Claim C8 (amended).  Dispatching a frame never lets an exception
escape `_handleWebSocketMessage`: an undecodable frame is logged and
dropped, a frame with an unknown discriminant is logged and dropped, and
when no subscriber throws every subscriber's handler runs in order.  But a
subscriber exception is caught by the frame-level `try`/`catch` — logged
once per frame, not per subscriber — and the subscribers registered after
the throwing one are skipped for that event. -/
theorem C8_dispatch (frame : FrameMsg) (subs : List Subscriber) :
    ((handleWebSocketMessage subs frame).raised = false)
    ∧ handleWebSocketMessage subs .malformed
        = ⟨[], [.parseFailure], false⟩
    ∧ (∀ msgType payload, knownKind msgType = false →
        handleWebSocketMessage subs (.typed msgType payload)
          = ⟨[], [.unknownKind msgType], false⟩)
    ∧ (∀ msgType payload, knownKind msgType = true →
        (∀ x ∈ subs, x.throwsOnEvent = false) →
        handleWebSocketMessage subs (.typed msgType payload)
          = ⟨subs.map Subscriber.sid, [], false⟩)
    ∧ (∀ msgType payload pre w post, knownKind msgType = true →
        subs = pre ++ w :: post →
        (∀ x ∈ pre, x.throwsOnEvent = false) → w.throwsOnEvent = true →
        handleWebSocketMessage subs (.typed msgType payload)
          = ⟨pre.map Subscriber.sid ++ [w.sid], [.subscriberFailure],
              false⟩) := by
  refine ⟨?_, rfl, ?_, ?_, ?_⟩
  · cases frame with
    | malformed => rfl
    | typed msgType payload =>
        by_cases hk : knownKind msgType = true
        · by_cases he : (emitRun subs).2 = true <;>
            simp [handleWebSocketMessage, hk, he]
        · simp [handleWebSocketMessage, hk]
  · intro msgType payload hk
    simp [handleWebSocketMessage, hk]
  · intro msgType payload hk hno
    simp [handleWebSocketMessage, hk, emitRun_nothrow subs hno]
  · intro msgType payload pre w post hk hsubs hpre hw
    subst hsubs
    simp [handleWebSocketMessage, hk, emitRun_throws pre w post hpre hw]

/-- Witness for `C8_dispatch` at a concrete input. -/
theorem C8_dispatch_witness :
    knownKind 0 = true
    ∧ handleWebSocketMessage [⟨3, false⟩] (.typed 0 0)
        = ⟨[3], [], false⟩ :=
  ⟨rfl, (C8_dispatch (.typed 0 0) [⟨3, false⟩]).2.2.2.1 0 0 rfl
    (by decide)⟩

/-! ## Connection state machine: `WebSocketManager.connect` -/

/-- Which stage of `connect()` fails, if any.  `_getConnectionInfo` never
throws (it falls back to the default URL internally); the stages that can
throw are the synchronous `new WebSocket` construction (`failOpen`),
`_waitForConnection` — transport error or 30-second timeout (`failWait`) —
and `_authenticateWebSocket` — authentication rejection or 10-second
timeout (`failAuth`). -/
inductive ConnectEnv
  | okEnv
  | failOpen
  | failWait
  | failAuth
deriving DecidableEq, Repr

/-- The connection-lifecycle state of a `WebSocketManager` handle. -/
structure ConnState where
  isConnected : Bool
  isConnecting : Bool
  reconnectAttempts : Nat
  hasTransport : Bool
  heartbeatStarted : Bool
  emitted : List WSEvent
deriving DecidableEq, Repr

/-- The settlement of the promise returned by `connect()`: the function
body contains no `return <value>` statement, so on fulfilment the resolved
value is `undefined` (`resolved none`); every failure is rethrown as
`new NetworkError(...)` (`rejectedNetwork`). -/
inductive ConnectOutcome
  | resolved (value : Option ConnState)
  | rejectedNetwork
deriving DecidableEq, Repr

/-- `WebSocketManager.connect()`: bail out (resolving with no value) when
already connected or connecting; otherwise set the connecting flag, emit
`connecting`, create the transport, wait for it, authenticate, start the
heartbeat and mark connected — resetting the attempt counter — or, on any
failure, reset the connecting flag, emit `error` and reject with a
`NetworkError`. -/
def connect (env : ConnectEnv) (s : ConnState) : ConnState × ConnectOutcome :=
  if s.isConnected = true ∨ s.isConnecting = true then (s, .resolved none)
  else
    let s1 := { s with isConnecting := true,
                       emitted := s.emitted ++ [WSEvent.connectingEv] }
    match env with
    | .failOpen =>
        ({ s1 with isConnecting := false,
                   emitted := s1.emitted ++ [WSEvent.errorEv] },
          .rejectedNetwork)
    | .failWait =>
        ({ s1 with hasTransport := true, isConnecting := false,
                   emitted := s1.emitted ++ [WSEvent.errorEv] },
          .rejectedNetwork)
    | .failAuth =>
        ({ s1 with hasTransport := true, isConnecting := false,
                   emitted := s1.emitted ++ [WSEvent.errorEv] },
          .rejectedNetwork)
    | .okEnv =>
        ({ s1 with hasTransport := true, heartbeatStarted := true,
                   isConnected := true, isConnecting := false,
                   reconnectAttempts := 0,
                   emitted := s1.emitted
                     ++ [WSEvent.connectEv, WSEvent.connectionEv] },
          .resolved none)

/-! ### Claim C9 -/

/-- A handle with a connect already pending. -/
def sPending : ConnState := ⟨false, true, 2, true, false, []⟩

/-- Claim C9 counterexample.  A `connect()` call while a connect is
pending is a no-op that leaves the handle unchanged, but its promise
resolves with no value (`return;` yields `undefined`) rather than
returning the existing state, as the claim asserts. -/
theorem C9_counterexample :
    (connect .okEnv sPending).1 = sPending
    ∧ (connect .okEnv sPending).2 = .resolved none
    ∧ ConnectOutcome.resolved none
        ≠ ConnectOutcome.resolved (some sPending) := by
  refine ⟨rfl, rfl, ?_⟩
  decide

/-- Claim C9 (amended).  A call to `connect()` while a connect is already
pending or the channel is already open is a no-op resolving with no value
(`undefined`) that leaves all handle state — including the transport —
unchanged, so at most one live underlying transport exists per handle at
any time. -/
theorem C9_connect_noop (env : ConnectEnv) (s : ConnState)
    (h : s.isConnected = true ∨ s.isConnecting = true) :
    connect env s = (s, .resolved none) := by
  unfold connect
  rw [if_pos h]

/-- Witness for `C9_connect_noop` at a concrete input. -/
theorem C9_connect_noop_witness :
    (sPending.isConnected = true ∨ sPending.isConnecting = true)
    ∧ connect .failAuth sPending = (sPending, .resolved none) :=
  ⟨Or.inr rfl, C9_connect_noop .failAuth sPending (Or.inr rfl)⟩

/-! ### Claim C10 -/

/-- Claim C10.  If `connect()` fails at any stage — transport creation,
waiting for the transport, or channel authentication (parameter fetching
cannot fail: `_getConnectionInfo` falls back internally) — the connecting
flag is reset to `false` before the failure is rethrown as a
network-classified error, the handle is not connected, and a subsequent
`connect()` call is not stopped by the no-op guard: it can run and
succeed. -/
theorem C10_connect_failure_resets (env : ConnectEnv) (s : ConnState)
    (h1 : s.isConnected = false) (h2 : s.isConnecting = false)
    (henv : env ≠ .okEnv) :
    ((connect env s).2 = .rejectedNetwork)
    ∧ (connect env s).1.isConnecting = false
    ∧ (connect env s).1.isConnected = false
    ∧ (connect .okEnv (connect env s).1).1.isConnected = true
    ∧ (connect .okEnv (connect env s).1).2 = .resolved none := by
  cases env with
  | okEnv => exact absurd rfl henv
  | failOpen => simp [connect, h1, h2]
  | failWait => simp [connect, h1, h2]
  | failAuth => simp [connect, h1, h2]

/-- An idle handle. -/
def sIdle : ConnState := ⟨false, false, 0, false, false, []⟩

/-- Witness for `C10_connect_failure_resets` at a concrete input. -/
theorem C10_connect_failure_resets_witness :
    sIdle.isConnected = false ∧ sIdle.isConnecting = false
    ∧ ConnectEnv.failWait ≠ ConnectEnv.okEnv
    ∧ (connect .failWait sIdle).2 = .rejectedNetwork :=
  ⟨rfl, rfl, by decide,
    (C10_connect_failure_resets .failWait sIdle rfl rfl (by decide)).1⟩

end MessengerSpec
